import Mathlib

/-!
Shallow embedding of the salon booking chatbot (Django app `salon_chatbot/chatbot`).

The embedding covers:
* the date/intent parsing helpers of `chatbot/chatbot.py` (`detect_intent`,
  `is_date_message`, `parse_user_date`, `parse_slot_number`,
  `parse_time_from_message`, `validate_service_type`, `is_business_day`);
* the slot availability engine of `chatbot/service_views.py`
  (`get_available_slots_for_staff`);
* the conversation stage handlers `_handle_service_selection` and
  `_handle_slot_selection` of `ChatbotAPIView` in `chatbot/chatbot.py`;
* the booking commit paths of `BookServiceAPIView.post` in `chatbot/views.py`
  and `chatbot/service_views.py`.

External collaborators (the `dateutil` fuzzy parser and the Django ORM) are
modelled as explicit parameters/oracles; everything the Python code computes
itself is translated directly.
-/

namespace Salon

/-! ## String utilities (Python `in`, `lower`, `strip`, word boundaries) -/

/-- Python word character for `\w` / `\b` boundaries (ASCII inputs). -/
def isWordChar (c : Char) : Bool := c.isAlphanum || c == '_'

/-- `p` occurs as a contiguous sublist of `s` (Python `p in s` on strings). -/
def listContainsSub (s p : List Char) : Bool :=
  (List.range (s.length + 1)).any fun i => p.isPrefixOf (s.drop i)

/-- Python substring containment `pat in s`. -/
def strContains (s pat : String) : Bool := listContainsSub s.data pat.data

/-- Python `str.lower()` (ASCII). -/
def strLower (s : String) : String := ⟨s.data.map Char.toLower⟩

/-- Python `str.strip()`: drop whitespace from both ends. -/
def strStrip (s : String) : String :=
  ⟨((s.data.dropWhile fun c => c.isWhitespace).reverse.dropWhile fun c =>
      c.isWhitespace).reverse⟩

/-- Python `str.endswith(suffix)`. -/
def strEndsWith (s suf : String) : Bool := List.isSuffixOf suf.data s.data

/-- Python `str.isdigit()` on ASCII text: nonempty and all digits. -/
def isDigits (s : String) : Bool := !s.data.isEmpty && s.data.all Char.isDigit

/-- Python `str.split()` : split on whitespace runs, dropping empty pieces. -/
def splitWords (s : String) : List String :=
  (s.split fun c => c.isWhitespace).filter fun w => w ≠ ""

/-- Python `str.title()` : uppercase a letter not preceded by a letter,
lowercase the rest. -/
def titleAux (prevAlpha : Bool) : List Char → List Char
  | [] => []
  | c :: cs => (if prevAlpha then c.toLower else c.toUpper) :: titleAux c.isAlpha cs

/-- Python `str.title()`. -/
def strTitle (s : String) : String := ⟨titleAux false s.data⟩

/-- A word-boundary (`\b`) holds before the current position given the
previous character (regex boundary against a word constituent). -/
def boundaryOK : Option Char → Bool
  | none => true
  | some p => !isWordChar p

/-- `w` occurs in `s` at position `i` with `\b` on both sides (for patterns
whose first and last characters are word characters, as all patterns used
by the source are). -/
def wordBoundedAt (s w : List Char) (i : Nat) : Bool :=
  w.isPrefixOf (s.drop i) &&
  (i == 0 || !isWordChar (s.getD (i - 1) ' ')) &&
  (i + w.length == s.length || !isWordChar (s.getD (i + w.length) ' '))

/-- Regex search `\b w \b` (with `w` a literal that starts and ends in word
characters), as used by `is_date_message`. -/
def containsWordP (s w : String) : Bool :=
  (List.range (s.data.length + 1)).any fun i => wordBoundedAt s.data w.data i

/-! ## Dates (Python `datetime.date`, proleptic Gregorian) -/

/-- A calendar date, as `datetime.date(year, month, day)`. -/
structure Date where
  year : Nat
  month : Nat
  day : Nat
deriving DecidableEq, Repr

/-- Gregorian leap-year rule. -/
def isLeapYear (y : Nat) : Bool := y % 4 == 0 && (y % 100 != 0 || y % 400 == 0)

/-- Number of days in month `m` of year `y`. -/
def daysInMonth (y m : Nat) : Nat :=
  if m = 2 then (if isLeapYear y then 29 else 28)
  else if m = 4 ∨ m = 6 ∨ m = 9 ∨ m = 11 then 30
  else 31

/-- Successor day in the calendar. -/
def nextDay (d : Date) : Date :=
  if d.day < daysInMonth d.year d.month then ⟨d.year, d.month, d.day + 1⟩
  else if d.month < 12 then ⟨d.year, d.month + 1, 1⟩
  else ⟨d.year + 1, 1, 1⟩

/-- Python `date + timedelta(days=n)` for `n ≥ 0`. -/
def addDays (d : Date) : Nat → Date
  | 0 => d
  | n + 1 => nextDay (addDays d n)

/-- Days in the months of year `y` strictly before month `m`. -/
def daysBeforeMonth (y m : Nat) : Nat :=
  (((List.range (m - 1)).map fun i => daysInMonth y (i + 1))).sum

/-- Python `date.toordinal()`: day number with `date(1,1,1).toordinal() = 1`. -/
def toOrdinal (d : Date) : Nat :=
  365 * (d.year - 1) + (d.year - 1) / 4 + (d.year - 1) / 400
    + daysBeforeMonth d.year d.month + d.day - (d.year - 1) / 100

/-- Python `date.weekday()`: Monday = 0 … Sunday = 6. -/
def pyWeekday (d : Date) : Nat := (toOrdinal d + 6) % 7

/-- Python `<` on dates (lexicographic on year, month, day). -/
def dateLt (a b : Date) : Bool :=
  decide (a.year < b.year ∨ (a.year = b.year ∧
    (a.month < b.month ∨ (a.month = b.month ∧ a.day < b.day))))

theorem dateLt_ne {a b : Date} (h : dateLt a b = true) : a ≠ b := by
  intro hab
  subst hab
  simp [dateLt] at h

/-! ## Regex scanners used by `chatbot/chatbot.py`

The source uses three concrete regexes on user messages:
`\b(\d+)\b` (`parse_slot_number`), `\b(\d{1,2}:\d{2})\b`
(`parse_time_from_message` and the slot-selection probe of `detect_intent`),
and `this month (\d{1,2})` (`parse_user_date`).  Each is modelled by a
left-to-right scanner that reproduces `re.search` semantics (leftmost match,
greedy quantifiers) on those fixed patterns. -/

/-- For `\b(\d+)\b` at a boundary position starting with digit `c`: the
maximal digit run, provided the character after the run is not a word
character (else the boundary fails and, since every position inside the run
has a digit on its left, no match can start inside the run). -/
def tryNumRun (c : Char) (cs : List Char) : Option (List Char) :=
  let run := c :: cs.takeWhile Char.isDigit
  match cs.dropWhile Char.isDigit with
  | [] => some run
  | r :: _ => if isWordChar r then none else some run

/-- Left-to-right scan for `\b(\d+)\b`. -/
def scanNum (prev : Option Char) : List Char → Option (List Char)
  | [] => none
  | c :: cs =>
    if boundaryOK prev && c.isDigit then
      match tryNumRun c cs with
      | some run => some run
      | none => scanNum (some c) cs
    else scanNum (some c) cs

/-- For `\b(\d{1,2}:\d{2})\b` at a boundary position starting with digit `c`:
greedy two-digit hour first, then one-digit hour, each followed by `:`, two
digits and a closing boundary. -/
def tryTimeRun (c : Char) (cs : List Char) : Option (List Char) :=
  match cs with
  | d2 :: ':' :: m1 :: m2 :: rest =>
    if d2.isDigit && m1.isDigit && m2.isDigit &&
        (rest.isEmpty || !isWordChar (rest.getD 0 ' ')) then
      some [c, d2, ':', m1, m2]
    else
      match cs with
      | ':' :: n1 :: n2 :: rest2 =>
        if n1.isDigit && n2.isDigit &&
            (rest2.isEmpty || !isWordChar (rest2.getD 0 ' ')) then
          some [c, ':', n1, n2]
        else none
      | _ => none
  | ':' :: n1 :: n2 :: rest2 =>
    if n1.isDigit && n2.isDigit &&
        (rest2.isEmpty || !isWordChar (rest2.getD 0 ' ')) then
      some [c, ':', n1, n2]
    else none
  | _ => none

/-- Left-to-right scan for `\b(\d{1,2}:\d{2})\b`. -/
def scanTime (prev : Option Char) : List Char → Option (List Char)
  | [] => none
  | c :: cs =>
    if boundaryOK prev && c.isDigit then
      match tryTimeRun c cs with
      | some s => some s
      | none => scanTime (some c) cs
    else scanTime (some c) cs

/-- Numeric value of a digit character. -/
def digitVal (c : Char) : Nat := c.toNat - '0'.toNat

/-- `re.search(r'this month (\d{1,2})', s)`: leftmost occurrence of the
literal `"this month "` followed by a digit; the captured group is greedy,
one or two digits. -/
def thisMonthScan : List Char → Option Nat
  | [] => none
  | c :: cs =>
    let s := c :: cs
    if "this month ".data.isPrefixOf s then
      match s.drop 11 with
      | d1 :: rest =>
        if d1.isDigit then
          match rest with
          | d2 :: _ =>
            if d2.isDigit then some (10 * digitVal d1 + digitVal d2)
            else some (digitVal d1)
          | [] => some (digitVal d1)
        else thisMonthScan cs
      | [] => thisMonthScan cs
    else thisMonthScan cs

/-! ## `chatbot/chatbot.py`: slot and time parsing helpers -/

/-- `parse_slot_number` (chatbot.py:145-158): a stripped all-digit message,
else the first `\b(\d+)\b` match, else `None`. -/
def parse_slot_number (message : String) : Option String :=
  let m := strStrip message
  if isDigits m then some m
  else (scanNum none m.data).map fun run => (⟨run⟩ : String)

/-- `parse_time_from_message` (chatbot.py:160-165): first
`\b(\d{1,2}:\d{2})\b` match. -/
def parse_time_from_message (message : String) : Option String :=
  (scanTime none message.data).map fun run => (⟨run⟩ : String)

/-! ## `chatbot/chatbot.py`: date parsing -/

/-- The `day_names` table of `parse_user_date` (chatbot.py:111-114), in
insertion order. -/
def dayNames : List (String × Nat) :=
  [("monday", 0), ("tuesday", 1), ("wednesday", 2), ("thursday", 3),
   ("friday", 4), ("saturday", 5), ("sunday", 6)]

/-- The day-name loop of `parse_user_date` (chatbot.py:116-117): first
day name that is a substring of the lowered message. -/
def findDayName (ml : String) : Option Nat :=
  (dayNames.find? fun p => strContains ml p.1).map fun p => p.2

/-- chatbot.py:118-120: `days_ahead = day_num - today.weekday()`,
bumped by 7 when `≤ 0`. -/
def daysAheadFor (todayW dayNum : Nat) : Int :=
  let d : Int := (dayNum : Int) - (todayW : Int)
  if d ≤ 0 then d + 7 else d

/-- The fuzzy tail of `parse_user_date` (chatbot.py:132-142): external
`dateutil` parse (`fz`, `none` models a raised exception), with past dates
mapped to `None`. -/
def fuzzyStep (fz : String → Option Date) (today : Date) (message : String) :
    Option Date :=
  match fz message with
  | some d => if dateLt d today then none else some d
  | none => none

/-- `parse_user_date` (chatbot.py:94-142).  `fz` models
`dateutil.parser.parse(·, fuzzy=True).date()`; `today` models
`datetime.today().date()`. -/
def parse_user_date (fz : String → Option Date) (today : Date)
    (message : String) : Option Date :=
  if message = "" then none
  else
    let ml := strStrip (strLower message)
    if strContains ml "today" then some today
    else if strContains ml "tomorrow" || strContains ml "next day" then
      some (addDays today 1)
    else if strContains ml "day after tomorrow" then some (addDays today 2)
    else
      match findDayName ml with
      | some dayNum =>
        some (addDays today (daysAheadFor (pyWeekday today) dayNum).toNat)
      | none =>
        match thisMonthScan ml.data with
        | some n =>
          if 1 ≤ n ∧ n ≤ daysInMonth today.year today.month then
            some ⟨today.year, today.month, n⟩
          else fuzzyStep fz today message
        | none => fuzzyStep fz today message

/-! ## `chatbot/chatbot.py`: intent classification -/

/-- Keywords of the `greeting` intent (chatbot.py:17). -/
def greetingKeywords : List String :=
  ["hi", "hello", "hey", "good morning", "good afternoon", "good evening",
   "yo", "hiya", "start"]

/-- Keywords of the `thanks` intent (chatbot.py:21). -/
def thanksKeywords : List String :=
  ["thanks", "thank you", "thx", "ty", "thank u", "thanks a lot", "appreciate"]

/-- Keywords of the `service_request` intent (chatbot.py:25). -/
def serviceRequestKeywords : List String :=
  ["haircut", "hair cut", "beard", "facial", "spa", "massage", "shave", "trim"]

/-- Keywords of the `date_keywords` intent (chatbot.py:29-31). -/
def dateKeywordsKeywords : List String :=
  ["today", "tomorrow", "next day", "day after tomorrow",
   "monday", "tuesday", "wednesday", "thursday", "friday", "saturday",
   "sunday", "next week", "this week"]

/-- Keywords of the `pricing` intent (chatbot.py:35). -/
def pricingKeywords : List String :=
  ["price", "cost", "how much", "charge", "fee", "rates", "pricing",
   "expensive", "cheap"]

/-- Keywords of the `working_hours` intent (chatbot.py:39). -/
def workingHoursKeywords : List String :=
  ["open", "close", "working hours", "timing", "hours", "schedule",
   "when open"]

/-- Keywords of the `cancel_restart` intent (chatbot.py:43). -/
def cancelRestartKeywords : List String :=
  ["cancel", "restart", "start over", "reset", "new booking", "begin again"]

/-- Keywords of the `help` intent (chatbot.py:47). -/
def helpKeywords : List String :=
  ["help", "what can you do", "options", "commands"]

/-- The `INTENTS` table of chatbot.py:15-52, in insertion order (Python dicts
iterate in insertion order, which fixes the priority of `detect_intent`). -/
def INTENTS : List (String × List String) :=
  [("greeting", greetingKeywords),
   ("thanks", thanksKeywords),
   ("service_request", serviceRequestKeywords),
   ("date_keywords", dateKeywordsKeywords),
   ("pricing", pricingKeywords),
   ("working_hours", workingHoursKeywords),
   ("cancel_restart", cancelRestartKeywords),
   ("help", helpKeywords),
   ("slot_selection", []),
   ("unknown", [])]

/-- Month names used by the ordinal-date pattern of `is_date_message`. -/
def monthNames : List String :=
  ["january", "february", "march", "april", "may", "june", "july", "august",
   "september", "october", "november", "december"]

/-- Tail of the ordinal-date pattern: a month name followed by a `\b`. -/
def matchMonthTail (rest : List Char) : Bool :=
  monthNames.any fun m =>
    m.data.isPrefixOf rest &&
    (match rest.drop m.data.length with
     | [] => true
     | r :: _ => !isWordChar r)

/-- `\s+` then the month tail: at least one whitespace character, all further
whitespace skipped (the month starts with a letter, so the greedy skip is
exact). -/
def wsThenMonth : List Char → Bool
  | [] => false
  | c :: cs =>
    c.isWhitespace && matchMonthTail (cs.dropWhile fun x => x.isWhitespace)

/-- After the day digits: an optional ordinal suffix `st|nd|rd|th`, then
`\s+` and the month tail. -/
def afterDayDigits (rest : List Char) : Bool :=
  wsThenMonth rest ||
  (["st", "nd", "rd", "th"].any fun suf =>
    suf.data.isPrefixOf rest && wsThenMonth (rest.drop 2))

/-- Scan for `\b\d{1,2}(st|nd|rd|th)?\s+(january|…|december)\b`
(chatbot.py:88). -/
def ordMonthScan (prev : Option Char) : List Char → Bool
  | [] => false
  | c :: cs =>
    (boundaryOK prev && c.isDigit &&
      ((match cs with
        | d2 :: cs2 => d2.isDigit && afterDayDigits cs2
        | [] => false) ||
       afterDayDigits cs)) ||
    ordMonthScan (some c) cs

/-- The `date_patterns` list of `is_date_message` (chatbot.py:84-89). -/
def datePatterns (ml : String) : Bool :=
  containsWordP ml "today" || containsWordP ml "tomorrow" ||
  containsWordP ml "next day" || containsWordP ml "day after tomorrow" ||
  containsWordP ml "this week" || containsWordP ml "this month" ||
  containsWordP ml "next week" || containsWordP ml "next month" ||
  (dayNames.any fun p => containsWordP ml p.1) ||
  ordMonthScan none ml.data

/-- `is_date_message` (chatbot.py:75-91): external fuzzy-parse probe first,
then the relative-date regex list. -/
def is_date_message (fz : String → Option Date) (ml : String) : Bool :=
  (fz ml).isSome || datePatterns ml

/-- `detect_intent` (chatbot.py:55-73): first intent of `INTENTS` owning a
keyword that is a substring of the lowered, stripped message; else the
date probe; else the time/number slot-selection probe; else `unknown`. -/
def detect_intent (fz : String → Option Date) (message : String) : String :=
  let ml := strStrip (strLower message)
  match INTENTS.find? fun p => p.2.any fun kw => strContains ml kw with
  | some p => p.1
  | none =>
    if is_date_message fz ml then "date_keywords"
    else if (scanTime none ml.data).isSome || isDigits (strStrip ml) then
      "slot_selection"
    else "unknown"

/-! ## `chatbot/chatbot.py`: service validation and business days -/

/-- The `service_mappings` table of `validate_service_type`
(chatbot.py:172-177), in insertion order. -/
def serviceMappings : List (String × List String) :=
  [("haircut", ["haircut", "hair cut", "hair", "cut"]),
   ("beard", ["beard", "shave", "trim beard"]),
   ("facial", ["facial", "face", "skincare"]),
   ("spa", ["spa", "massage", "relax", "therapy"])]

/-- `validate_service_type` (chatbot.py:168-183). -/
def validate_service_type (message : String) : Option String :=
  let ml := strLower message
  (serviceMappings.find? fun p => p.2.any fun kw => strContains ml kw).map
    fun p => p.1

/-- `is_business_day` (chatbot.py:185-187): Monday-Saturday. -/
def is_business_day (d : Date) : Bool := decide (pyWeekday d < 6)

/-! ## `chatbot/service_views.py`: slot availability engine -/

/-- `BUSINESS_HOURS['slot_duration']` (service_views.py:19). -/
def SLOT_DURATION : Int := 30

/-- `BUSINESS_HOURS['buffer_time']` (service_views.py:20). -/
def BUFFER_TIME : Nat := 15

/-- `duration = service.duration_minutes or BUSINESS_HOURS['slot_duration']`
(service_views.py:617): Python `or` replaces both `None` and `0`. -/
def effDuration (dm : Option Int) : Int :=
  match dm with
  | none => SLOT_DURATION
  | some d => if d = 0 then SLOT_DURATION else d

/-- The slot-generation loop of `get_available_slots_for_staff`
(service_views.py:624-629): starting at `c`, emit the current time and
advance by `d + b` while `current + d ≤ e`.  Times are minutes of the day.
The fuel argument only bounds the iteration count for structural recursion;
`e + 1` fuel is always sufficient (each iteration strictly increases `c`,
which stays below `e`). -/
def genSlotsF : Nat → Nat → Nat → Nat → Nat → List Nat
  | 0, _, _, _, _ => []
  | fuel + 1, c, e, d, b =>
    if c + d ≤ e then c :: genSlotsF fuel (c + d + b) e d b else []

/-- Candidate slot starts for a window `[s, e]`, duration `d` and buffer `b`
(service_views.py:620-629), including the `duration <= 0` guard. -/
def possibleSlots (s e : Nat) (d : Int) (b : Nat) : List Nat :=
  if d ≤ 0 then [] else genSlotsF (e + 1) s e d.toNat b

/-- Staff availability window for the requested weekday
(`StaffAvailability.start_time` / `end_time`, minutes of the day). -/
structure Window where
  startT : Nat
  endT : Nat
deriving DecidableEq, Repr

/-- The collaborators and clock inputs of `get_available_slots_for_staff`:
the `StaffAvailability` lookup and the `Booking` query are ORM calls that can
raise (modelled with `Except`), `duration_minutes` comes from the service
row, and `nowDate`/`nowTime` model `datetime.today()`/`datetime.now()`. -/
structure SlotEnv where
  availability : Except Unit (Option Window)
  duration_minutes : Option Int
  bookings : Except Unit (List Nat)
  bookingDate : Date
  nowDate : Date
  nowTime : Nat

/-- The candidate slots after the past-slot filter
(service_views.py:638-641): when the requested date is today, keep only
slots strictly after the current time. -/
def candidateSlots (env : SlotEnv) (w : Window) (d : Int) : List Nat :=
  let raw := possibleSlots w.startT w.endT d BUFFER_TIME
  if env.bookingDate = env.nowDate then
    raw.filter fun t => decide (env.nowTime < t)
  else raw

/-- Two-digit zero padding, as `strftime` field formatting. -/
def pad2 (n : Nat) : String := if n < 10 then "0" ++ toString n else toString n

/-- `time.strftime("%H:%M")` on a minutes-of-day value. -/
def minutesToHHMM (t : Nat) : String := pad2 (t / 60) ++ ":" ++ pad2 (t % 60)

/-- The body of `get_available_slots_for_staff` (service_views.py:601-651)
up to the surrounding `try`: availability lookup, duration guard, slot
generation, booking lookup, past filter and partition into
(available, booked) `"HH:MM"` strings. -/
def slotsBody (env : SlotEnv) : Except Unit (List String × List String) :=
  match env.availability with
  | .error e => .error e
  | .ok none => .ok ([], [])
  | .ok (some w) =>
    let duration := effDuration env.duration_minutes
    if duration ≤ 0 then .ok ([], [])
    else
      match env.bookings with
      | .error e => .error e
      | .ok booked =>
        let cands := candidateSlots env w duration
        .ok ((cands.filter fun t => !booked.contains t).map minutesToHHMM,
             booked.map minutesToHHMM)

/-- `get_available_slots_for_staff` (service_views.py:596-655): the whole
body is wrapped in `try/except`, and any exception is converted into the
`([], [])` result. -/
def get_available_slots_for_staff (env : SlotEnv) :
    List String × List String :=
  match slotsBody env with
  | .ok r => r
  | .error _ => ([], [])

/-! ## `chatbot/chatbot.py`: conversation state machine -/

/-- A per-user conversation record, as initialised in
`ChatbotAPIView.post` (chatbot.py:210-219).  `available_slots` is the
staff-name → open-times mapping, `slot_map` the ordinal → "staff time"
offer map (both Python dicts with string keys, modelled as insertion-ordered
association lists). -/
structure ConvState where
  stage : String
  service_type : Option String
  selected_slot : Option String
  requested_date : Option Date
  available_slots : List (String × List String)
  slot_map : List (String × String)
deriving DecidableEq, Repr

/-- The external collaborators of the stage handlers: the `dateutil` fuzzy
parser, the wall clock date, and `_get_available_slots` (chatbot.py:418-434,
which swallows every internal failure and returns `{}`, so it is total). -/
structure BotEnv where
  fz : String → Option Date
  today : Date
  getSlots : String → Date → List (String × List String)

/-- Python `str(x)` on the `service_type` field (`None` prints as `"None"`,
as in the f-string of chatbot.py:348). -/
def serviceTypeStr : Option String → String
  | some s => s
  | none => "None"

/-- English month name, for `strftime('%B %d, %Y')`. -/
def monthNameEn (m : Nat) : String :=
  (["January", "February", "March", "April", "May", "June", "July",
    "August", "September", "October", "November", "December"].getD (m - 1) "")

/-- `date.strftime('%B %d, %Y')`. -/
def formatDateLong (d : Date) : String :=
  monthNameEn d.month ++ " " ++ pad2 d.day ++ ", " ++ toString d.year

/-- The ordinal slot offer map built in `_handle_service_selection`
(chatbot.py:324-334): counter over staff members in dict order, times in
list order. -/
def buildSlotPairs (slots : List (String × List String)) :
    List (String × String) :=
  ((slots.flatMap fun p => p.2.map fun t => (p.1, t)).enum).map
    fun q => (toString (q.1 + 1), q.2.1 ++ " " ++ q.2.2)

/-- The numbered lines of the offer message (chatbot.py:328-332). -/
def slotLines (slots : List (String × List String)) : String :=
  String.join
    (((slots.flatMap fun p => p.2.map fun t => (p.1, t)).enum).map
      fun q => toString (q.1 + 1) ++ ". " ++ q.2.1 ++ ": " ++ q.2.2 ++ "\n")

/-- The closed-day reply of `_handle_service_selection` (chatbot.py:307). -/
def closedDayMsg : String :=
  "We\x27re closed on Sundays. Please choose Monday through Saturday."

/-- `_handle_service_selection` (chatbot.py:290-340).  The date resolved
from the message falls back to today; the `except` branch of the final
`try` is unreachable because `_get_available_slots` already catches every
failure, so it is not modelled. -/
def handle_service_selection (env : BotEnv) (st : ConvState)
    (message : String) : String × ConvState :=
  let chosen : Option (ConvState × String) :=
    match st.service_type with
    | some s => some (st, s)
    | none =>
      match validate_service_type message with
      | some s => some ({st with service_type := some s}, s)
      | none => none
  match chosen with
  | none =>
    ("Please choose from our services: Haircut, Beard, Facial, or SPA. " ++
     "Which one interests you?", st)
  | some (st1, s) =>
    let requested := (parse_user_date env.fz env.today message).getD env.today
    if is_business_day requested then
      let st2 := {st1 with requested_date := some requested}
      let available := env.getSlots s requested
      if available.isEmpty then
        ("Sorry, no slots available for " ++ s ++ " on " ++
         formatDateLong requested ++ ". Please try another date.", st2)
      else
        let slotMap := buildSlotPairs available
        ("Available slots for " ++ strTitle s ++ " on " ++
         formatDateLong requested ++ ":\n\n" ++ slotLines available ++
         "\nPlease reply with the slot number (e.g., \x271\x27) or the " ++
         "time (e.g., \x2710:00\x27).",
         {st2 with available_slots := available, stage := "pick_slot",
                   slot_map := slotMap})
    else (closedDayMsg, st1)

/-- chatbot.py:356-359: the ordinal-key step of the slot selection — the
number extracted by `parse_slot_number` looked up among the offer-map
keys. -/
def selectionByNumber (slotMap : List (String × String))
    (message : String) : Option String :=
  match parse_slot_number message with
  | some n => List.lookup n slotMap
  | none => none

/-- chatbot.py:362-368: the time-suffix fallback of the slot selection. -/
def selectionByTime (slotMap : List (String × String))
    (message : String) : Option String :=
  match parse_time_from_message message with
  | some t => (slotMap.find? fun p => strEndsWith p.2 t).map fun p => p.2
  | none => none

/-- chatbot.py:354-368: number match first, then time-suffix match. -/
def resolveSelection (slotMap : List (String × String)) (message : String) :
    Option String :=
  match selectionByNumber slotMap message with
  | some v => some v
  | none => selectionByTime slotMap message

/-- The re-display reply of `_handle_slot_selection` (chatbot.py:370-374). -/
def redisplayMsg (slotMap : List (String × String)) : String :=
  "Please choose a valid option:\n\n" ++
  String.intercalate "\n" (slotMap.map fun p => p.1 ++ ". " ++ p.2) ++
  "\n\nReply with the number or time."

/-- `_handle_slot_selection` after the date-change check
(chatbot.py:350-395): empty offer map, selection resolution, staleness
re-validation against the cached `available_slots`, and the
`booking_link` transition.  (With an unset `requested_date` the source
would raise on `strftime` and surface a 500; the model formats `"None"`
instead, a path no claim touches.) -/
def slotSelectionCore (st : ConvState) (message : String) :
    String × ConvState :=
  if st.slot_map.isEmpty then
    ("Please start over by telling me which service you\x27d like.", st)
  else
    match resolveSelection st.slot_map message with
    | none => (redisplayMsg st.slot_map, st)
    | some selected =>
      let wds := splitWords selected
      let slotTime := wds.getLastD ""
      let staffName := String.intercalate " " wds.dropLast
      if ((List.lookup staffName st.available_slots).getD []).contains
          slotTime then
        ("Perfect! Your " ++ serviceTypeStr st.service_type ++
         " appointment is reserved with " ++ staffName ++ " at " ++
         slotTime ++ " on " ++
         ((st.requested_date.map formatDateLong).getD "None") ++
         ".\n\nClick here to complete your booking: " ++
         "http://127.0.0.1:8000/api/book/ \nThank you for choosing FIDDEN!",
         {st with selected_slot := some selected, stage := "booking_link"})
      else
        ("Sorry, " ++ slotTime ++ " with " ++ staffName ++
         " is no longer available. Please choose another slot.", st)

/-- `_handle_slot_selection` (chatbot.py:342-395): if the message resolves
to a date different from the session date, re-enter service selection with
the new date; otherwise resolve a slot selection. -/
def handle_slot_selection (env : BotEnv) (st : ConvState)
    (message : String) : String × ConvState :=
  match parse_user_date env.fz env.today message with
  | some nd =>
    if some nd = st.requested_date then slotSelectionCore st message
    else
      handle_service_selection env {st with requested_date := some nd}
        (serviceTypeStr st.service_type ++ " " ++ message)
  | none => slotSelectionCore st message

/-! ## Booking commit (`BookServiceAPIView.post`, two revisions) -/

/-- A persisted `Booking` row, restricted to the fields the conflict check
reads (`models.py:68-89`). -/
structure BookingRec where
  staff : Nat
  booking_date : Date
  booking_time : Nat
  status : String
deriving DecidableEq, Repr

/-- The bookings with status `pending` or `confirmed` at a given
(staff, date, time) triple. -/
def activeAt (db : List BookingRec) (staff : Nat) (d : Date) (t : Nat) :
    List BookingRec :=
  db.filter fun b =>
    decide (b.staff = staff ∧ b.booking_date = d ∧ b.booking_time = t ∧
      (b.status = "confirmed" ∨ b.status = "pending"))

/-- `BookServiceAPIView.post` of `chatbot/views.py` (lines 142-155), commit
core: reject when any booking (of any status) occupies the triple, else
create a `confirmed` booking. -/
def commitViews (db : List BookingRec) (staff : Nat) (d : Date) (t : Nat) :
    Except String (List BookingRec) :=
  if db.any fun b =>
      decide (b.staff = staff ∧ b.booking_date = d ∧ b.booking_time = t) then
    .error "This time slot is already booked"
  else .ok (db ++ [⟨staff, d, t, "confirmed"⟩])

/-- `BookServiceAPIView.post` of `chatbot/service_views.py` (lines 464-484),
commit core: the pending/confirmed conflict lookup only feeds a log warning
(`logger.warning`), and the `confirmed` booking is created unconditionally. -/
def commitServiceViews (db : List BookingRec) (staff : Nat) (d : Date)
    (t : Nat) : Except String (List BookingRec) :=
  let existing := db.find? fun b =>
    decide (b.staff = staff ∧ b.booking_date = d ∧ b.booking_time = t ∧
      (b.status = "confirmed" ∨ b.status = "pending"))
  let _warned := existing.isSome
  .ok (db ++ [⟨staff, d, t, "confirmed"⟩])

/-! ## Helper lemmas -/

theorem listContainsSub_iff {s p : List Char} :
    listContainsSub s p = true ↔ p <:+: s := by
  unfold listContainsSub
  rw [List.any_eq_true]
  constructor
  · rintro ⟨i, _, hp⟩
    exact ((List.isPrefixOf_iff_prefix).mp hp).isInfix.trans
      (List.drop_suffix i s).isInfix
  · intro h
    obtain ⟨t₁, t₂, hs⟩ := h
    refine ⟨t₁.length, ?_, ?_⟩
    · rw [List.mem_range]
      subst hs
      simp [List.length_append]
      omega
    · rw [List.isPrefixOf_iff_prefix]
      subst hs
      rw [List.append_assoc, List.drop_left]
      exact List.prefix_append p t₂

/-- Substring containment is transitive along infixes: if `sup` occurs in
`ml` and `sub` is an infix of `sup`, then `sub` occurs in `ml`. -/
theorem strContains_of_middle {ml sup sub : String}
    (hsup : strContains ml sup = true) (hinf : sub.data <:+: sup.data) :
    strContains ml sub = true := by
  rw [strContains, listContainsSub_iff] at hsup ⊢
  exact hinf.trans hsup

/-- A message not containing "tomorrow" cannot contain "day after
tomorrow". -/
theorem no_day_after_of_no_tomorrow {ml : String}
    (h : strContains ml "tomorrow" = false) :
    strContains ml "day after tomorrow" = false := by
  cases hda : strContains ml "day after tomorrow" with
  | false => rfl
  | true =>
    have : strContains ml "tomorrow" = true :=
      @strContains_of_middle ml "day after tomorrow" "tomorrow" hda (by decide)
    simp [this] at h

theorem findDayName_lt7 {ml : String} {t : Nat}
    (h : findDayName ml = some t) : t < 7 := by
  unfold findDayName at h
  rw [Option.map_eq_some'] at h
  obtain ⟨pr, hpr, hpt⟩ := h
  have hmem := List.mem_of_find?_eq_some hpr
  have hall : ∀ pr ∈ dayNames, pr.2 < 7 := by decide
  exact hpt ▸ hall pr hmem

theorem mem_genSlotsF_lower {e d b : Nat} :
    ∀ {fuel c t : Nat}, t ∈ genSlotsF fuel c e d b → c ≤ t := by
  intro fuel
  induction fuel with
  | zero => intro c t h; simp [genSlotsF] at h
  | succ n ih =>
    intro c t h
    by_cases hc : c + d ≤ e
    · simp only [genSlotsF, if_pos hc, List.mem_cons] at h
      rcases h with rfl | h
      · exact Nat.le_refl t
      · exact Nat.le_trans (by omega) (ih h)
    · simp [genSlotsF, hc] at h

theorem mem_genSlotsF {e d b : Nat} (hd : 0 < d) :
    ∀ {fuel c : Nat}, e < fuel + c →
      ∀ {t : Nat}, (t ∈ genSlotsF fuel c e d b ↔
        ∃ k, t = c + k * (d + b) ∧ t + d ≤ e) := by
  intro fuel
  induction fuel with
  | zero =>
    intro c hf t
    simp only [genSlotsF, List.not_mem_nil, false_iff]
    rintro ⟨k, rfl, hle⟩
    have hk : c ≤ c + k * (d + b) := Nat.le_add_right _ _
    omega
  | succ n ih =>
    intro c hf t
    by_cases hc : c + d ≤ e
    · simp only [genSlotsF, if_pos hc, List.mem_cons]
      constructor
      · rintro (rfl | h)
        · exact ⟨0, by simp, hc⟩
        · have hf' : e < n + (c + d + b) := by omega
          obtain ⟨k, rfl, hle⟩ := (ih hf').mp h
          exact ⟨k + 1, by ring, hle⟩
      · rintro ⟨k, rfl, hle⟩
        cases k with
        | zero => left; simp
        | succ k =>
          right
          have hf' : e < n + (c + d + b) := by omega
          exact (ih hf').mpr ⟨k, by ring, by rw [show c + (k + 1) * (d + b) =
            c + d + b + k * (d + b) by ring] at hle ⊢; exact hle⟩
    · simp only [genSlotsF, if_neg hc, List.not_mem_nil, false_iff]
      rintro ⟨k, rfl, hle⟩
      have hk : c + d ≤ c + k * (d + b) + d := by omega
      omega

theorem head?_genSlotsF {e d b fuel c x : Nat}
    (h : (genSlotsF fuel c e d b).head? = some x) : x = c := by
  cases fuel with
  | zero => simp [genSlotsF] at h
  | succ n =>
    by_cases hc : c + d ≤ e
    · simp only [genSlotsF, if_pos hc, List.head?_cons, Option.some.injEq] at h
      exact h.symm
    · simp [genSlotsF, hc] at h

theorem chain_genSlotsF {e d b : Nat} :
    ∀ {fuel c : Nat},
      List.Chain' (fun x y => y = x + (d + b)) (genSlotsF fuel c e d b) := by
  intro fuel
  induction fuel with
  | zero => intro c; simp [genSlotsF]
  | succ n ih =>
    intro c
    by_cases hc : c + d ≤ e
    · simp only [genSlotsF, if_pos hc]
      refine List.chain'_cons'.mpr ⟨?_, ih⟩
      intro y hy
      rw [Option.mem_def] at hy
      rw [head?_genSlotsF hy]
      ring
    · simp [genSlotsF, hc]

theorem sorted_genSlotsF {e d b : Nat} (hd : 0 < d) :
    ∀ {fuel c : Nat}, List.Sorted (· < ·) (genSlotsF fuel c e d b) := by
  intro fuel
  induction fuel with
  | zero => intro c; simp [genSlotsF]
  | succ n ih =>
    intro c
    by_cases hc : c + d ≤ e
    · simp only [genSlotsF, if_pos hc]
      refine List.sorted_cons.mpr ⟨?_, ih⟩
      intro t ht
      have := mem_genSlotsF_lower ht
      omega
    · simp [genSlotsF, hc]

/-! ## Claims -/

/-- C3: the candidate slot sequence of `get_available_slots_for_staff`
starts at the window start, advances by `duration + buffer`, contains
exactly the starts `t` with `t + duration ≤ windowEnd` (in ascending
order), and a duration `≤ 0` yields the empty sequence. -/
theorem C3_slot_generation (s e : Nat) (d : Int) (b : Nat) :
    (d ≤ 0 → possibleSlots s e d b = []) ∧
    (0 < d → ∀ t : Nat,
      (t ∈ possibleSlots s e d b ↔
        ∃ k : Nat, t = s + k * (d.toNat + b) ∧ t + d.toNat ≤ e)) ∧
    (0 < d → List.Chain' (fun x y => y = x + (d.toNat + b))
      (possibleSlots s e d b)) ∧
    (0 < d → List.Sorted (· < ·) (possibleSlots s e d b)) ∧
    (0 < d → s + d.toNat ≤ e → (possibleSlots s e d b).head? = some s) := by
  refine ⟨?_, ?_, ?_, ?_, ?_⟩
  · intro h
    simp [possibleSlots, h]
  · intro hd t
    have hd' : 0 < d.toNat := by omega
    rw [possibleSlots, if_neg (by omega)]
    exact mem_genSlotsF hd' (by omega)
  · intro hd
    rw [possibleSlots, if_neg (by omega)]
    exact chain_genSlotsF
  · intro hd
    have hd' : 0 < d.toNat := by omega
    rw [possibleSlots, if_neg (by omega)]
    exact sorted_genSlotsF hd'
  · intro hd hse
    rw [possibleSlots, if_neg (by omega)]
    simp [genSlotsF, hse]

/-- Witness for C3 at the default business window (09:00-18:00, 30-minute
duration, 15-minute buffer). -/
theorem C3_slot_generation_witness :
    (585 : Nat) ∈ possibleSlots 540 1080 30 15 :=
  ((C3_slot_generation 540 1080 30 15).2.1 (by decide) 585).mpr
    ⟨1, by decide, by decide⟩

/-- C4: when the requested date equals today, every emitted candidate is
strictly after the current time of day (so open times only come from
such candidates); when the requested date is strictly later than today,
the past filter does not remove any candidate. -/
theorem C4_past_slot_exclusion (env : SlotEnv) (w : Window) (d : Int) :
    (env.bookingDate = env.nowDate →
      ∀ t ∈ candidateSlots env w d, env.nowTime < t) ∧
    (dateLt env.nowDate env.bookingDate = true →
      candidateSlots env w d = possibleSlots w.startT w.endT d BUFFER_TIME) ∧
    (env.bookingDate = env.nowDate →
      ∀ s ∈ (get_available_slots_for_staff env).1,
        ∃ t : Nat, env.nowTime < t ∧ s = minutesToHHMM t) := by
  have hfilter : ∀ (w' : Window) (d' : Int), env.bookingDate = env.nowDate →
      ∀ t ∈ candidateSlots env w' d', env.nowTime < t := by
    intro w' d' h t ht
    simp only [candidateSlots, if_pos h, List.mem_filter,
      decide_eq_true_eq] at ht
    exact ht.2
  refine ⟨hfilter w d, ?_, ?_⟩
  · intro h
    have hne : env.bookingDate ≠ env.nowDate := fun he => dateLt_ne h he.symm
    simp only [candidateSlots, if_neg hne]
  · intro h s hs
    rcases ha : env.availability with e | ow
    · simp [get_available_slots_for_staff, slotsBody, ha] at hs
    · rcases ow with _ | w'
      · simp [get_available_slots_for_staff, slotsBody, ha] at hs
      · by_cases hdur : effDuration env.duration_minutes ≤ 0
        · simp [get_available_slots_for_staff, slotsBody, ha, hdur] at hs
        · rcases hb : env.bookings with e | booked
          · simp [get_available_slots_for_staff, slotsBody, ha, hdur, hb]
              at hs
          · have hfst : (get_available_slots_for_staff env).1 =
                ((candidateSlots env w' (effDuration env.duration_minutes)
                  ).filter fun t => !booked.contains t).map minutesToHHMM := by
              simp [get_available_slots_for_staff, slotsBody, ha,
                if_neg hdur, hb]
            rw [hfst, List.mem_map] at hs
            obtain ⟨t, ht, rfl⟩ := hs
            rw [List.mem_filter] at ht
            exact ⟨t, hfilter w' (effDuration env.duration_minutes) h t ht.1, rfl⟩

/-- Witness environment for C4: requested date = today = 2026-10-12,
now 14:00, window 09:00-18:00, duration 30. -/
def slotEnvToday : SlotEnv :=
  ⟨.ok (some ⟨540, 1080⟩), some 30, .ok [], ⟨2026, 10, 12⟩,
   ⟨2026, 10, 12⟩, 840⟩

/-- Witness for C4: the 15:00 candidate survives the same-day filter only
because it is after 14:00. -/
theorem C4_past_slot_exclusion_witness : (840 : Nat) < 900 :=
  (C4_past_slot_exclusion slotEnvToday ⟨540, 1080⟩ 30).1 rfl 900 (by decide)

/-- C10: `get_available_slots_for_staff` maps a failed availability lookup,
a missing availability window, and a failed bookings lookup all to the same
`([], [])` result (an internal failure is indistinguishable from a day
without availability), and never propagates the exception. -/
theorem C10_total_boundary (env : SlotEnv) :
    (env.availability = .error () →
      get_available_slots_for_staff env = ([], [])) ∧
    (env.availability = .ok none →
      get_available_slots_for_staff env = ([], [])) ∧
    (env.bookings = .error () →
      get_available_slots_for_staff env = ([], [])) := by
  refine ⟨?_, ?_, ?_⟩
  · intro h
    simp [get_available_slots_for_staff, slotsBody, h]
  · intro h
    simp [get_available_slots_for_staff, slotsBody, h]
  · intro h
    rcases ha : env.availability with e | ow
    · simp [get_available_slots_for_staff, slotsBody, ha]
    · rcases ow with _ | w
      · simp [get_available_slots_for_staff, slotsBody, ha]
      · by_cases hdur : effDuration env.duration_minutes ≤ 0 <;>
          simp [get_available_slots_for_staff, slotsBody, ha, hdur, h]

/-- Witness environment for C10: the availability lookup raises. -/
def slotEnvErr : SlotEnv :=
  ⟨.error (), some 30, .ok [], ⟨2026, 10, 12⟩, ⟨2026, 10, 12⟩, 840⟩

/-- Witness for C10. -/
theorem C10_total_boundary_witness :
    get_available_slots_for_staff slotEnvErr = ([], []) :=
  (C10_total_boundary slotEnvErr).1 rfl

/-- A fuzzy-parse oracle that always fails (any text `dateutil` rejects). -/
def fzNone : String → Option Date := fun _ => none

/-- Reference date used by concrete evaluations: Monday, 2026-10-12. -/
def refDate : Date := ⟨2026, 10, 12⟩

/-- Tuesday, 2026-10-13. -/
def bdate13 : Date := ⟨2026, 10, 13⟩

/-- A database holding one confirmed booking for staff 1 at 10:00 on
2026-10-13. -/
def db0 : List BookingRec := [⟨1, bdate13, 600, "confirmed"⟩]

/-- The `views.py` commit revision does reject an occupied triple. -/
theorem commitViews_conflict_rejects :
    commitViews db0 1 bdate13 600 =
      .error "This time slot is already booked" := rfl

/-- C1 (failing run): the `service_views.py` commit revision accepts a
second commit for a triple that already holds a confirmed booking, leaving
two bookings with status in \x7bpending, confirmed\x7d on the same
(staff, date, time). -/
theorem C1_duplicate_commit :
    commitServiceViews db0 1 bdate13 600 =
      .ok [⟨1, bdate13, 600, "confirmed"⟩, ⟨1, bdate13, 600, "confirmed"⟩] ∧
    (activeAt [⟨1, bdate13, 600, "confirmed"⟩,
      ⟨1, bdate13, 600, "confirmed"⟩] 1 bdate13 600).length = 2 := by
  constructor
  · rfl
  · decide

/-- C2 (failing run): `parse_user_date "day after tomorrow"` takes the
`"tomorrow"` substring branch first (it is a substring of
"day after tomorrow") and returns the reference date plus one day, not
plus two; the dedicated plus-two branch is unreachable. -/
theorem C2_day_after_tomorrow :
    parse_user_date fzNone refDate "day after tomorrow" =
      some (addDays refDate 1) ∧
    addDays refDate 1 = ⟨2026, 10, 13⟩ ∧
    addDays refDate 2 = ⟨2026, 10, 14⟩ := by
  refine ⟨?_, rfl, rfl⟩
  decide

/-- C6 (counterexample): "price today" contains the `pricing` keyword
"price", yet `detect_intent` classifies it as `date_keywords`, because the
`date_keywords` entry precedes `pricing` in the `INTENTS` iteration order. -/
theorem C6_keyword_priority_counterexample :
    detect_intent fzNone "price today" = "date_keywords" ∧
    "price" ∈ pricingKeywords ∧
    strContains (strStrip (strLower "price today")) "price" = true := by
  refine ⟨by decide, by decide, by decide⟩

/-- C6 (amended): `date_keywords` is itself a keyword-owning intent, placed
after `greeting`, `thanks` and `service_request` but before `pricing`,
`working_hours`, `cancel_restart` and `help`: whenever none of the first
three intents has a keyword in the message and some `date_keywords` keyword
occurs, the classification is `date_keywords` — regardless of any
pricing/hours/cancel/help keywords also present. -/
theorem C6_date_alias_priority (fz : String → Option Date) (msg : String)
    (h1 : (greetingKeywords.any fun kw =>
      strContains (strStrip (strLower msg)) kw) = false)
    (h2 : (thanksKeywords.any fun kw =>
      strContains (strStrip (strLower msg)) kw) = false)
    (h3 : (serviceRequestKeywords.any fun kw =>
      strContains (strStrip (strLower msg)) kw) = false)
    (h4 : (dateKeywordsKeywords.any fun kw =>
      strContains (strStrip (strLower msg)) kw) = true) :
    detect_intent fz msg = "date_keywords" := by
  unfold detect_intent
  simp only [INTENTS, List.find?, h1, h2, h3, h4]

/-- Witness for C6: "price today" satisfies the hypotheses. -/
theorem C6_date_alias_priority_witness :
    detect_intent fzNone "price today" = "date_keywords" :=
  C6_date_alias_priority fzNone "price today"
    (by decide) (by decide) (by decide) (by decide)

/-- C7: when no earlier relative-date branch fires and the message contains
a weekday name, `parse_user_date` returns the reference date plus
`daysAheadFor`, which equals `((target - weekday(ref) - 1) mod 7) + 1`; a
target equal to the reference weekday lands exactly 7 days ahead, never on
the reference date itself. -/
theorem C7_next_weekday (fz : String → Option Date) (today : Date)
    (msg : String) (target : Nat)
    (hne : msg ≠ "")
    (h1 : strContains (strStrip (strLower msg)) "today" = false)
    (h2 : strContains (strStrip (strLower msg)) "tomorrow" = false)
    (h3 : strContains (strStrip (strLower msg)) "next day" = false)
    (h4 : findDayName (strStrip (strLower msg)) = some target) :
    parse_user_date fz today msg =
      some (addDays today (daysAheadFor (pyWeekday today) target).toNat) ∧
    daysAheadFor (pyWeekday today) target =
      ((target : Int) - (pyWeekday today : Int) - 1) % 7 + 1 ∧
    (target = pyWeekday today →
      (daysAheadFor (pyWeekday today) target).toNat = 7) := by
  have hDAT := no_day_after_of_no_tomorrow h2
  have htlt : target < 7 := findDayName_lt7 h4
  have hwlt : pyWeekday today < 7 := Nat.mod_lt _ (by norm_num)
  refine ⟨?_, ?_, ?_⟩
  · unfold parse_user_date
    rw [if_neg hne]
    simp only [h1, h2, h3, hDAT, h4, Bool.or_self, Bool.false_eq_true,
      if_false]
  · unfold daysAheadFor
    dsimp only
    split <;> omega
  · intro heq
    subst heq
    unfold daysAheadFor
    dsimp only
    split <;> omega

/-- Witness for C7: "friday" from Monday 2026-10-12 resolves to Friday
2026-10-16 (4 days ahead). -/
theorem C7_next_weekday_witness :
    parse_user_date fzNone refDate "friday" = some ⟨2026, 10, 16⟩ := by
  have h := (C7_next_weekday fzNone refDate "friday" 4
    (by decide) (by decide) (by decide) (by decide) (by decide)).1
  rw [h]
  decide

/-- C9: when no earlier branch of `parse_user_date` fires and the lowered
message matches `this month N`, a valid `N` for the reference month returns
its `N`-th day; an invalid `N` does not return `none` by itself — the
resolver falls through to the fuzzy full-text parse (so the month branch
never clamps or rolls over, but the final result is whatever the fuzzy
parse yields). -/
theorem C9_this_month (fz : String → Option Date) (today : Date)
    (msg : String) (n : Nat)
    (hne : msg ≠ "")
    (h1 : strContains (strStrip (strLower msg)) "today" = false)
    (h2 : strContains (strStrip (strLower msg)) "tomorrow" = false)
    (h3 : strContains (strStrip (strLower msg)) "next day" = false)
    (h4 : findDayName (strStrip (strLower msg)) = none)
    (h5 : thisMonthScan (strStrip (strLower msg)).data = some n) :
    (1 ≤ n ∧ n ≤ daysInMonth today.year today.month →
      parse_user_date fz today msg = some ⟨today.year, today.month, n⟩) ∧
    (¬ (1 ≤ n ∧ n ≤ daysInMonth today.year today.month) →
      parse_user_date fz today msg = fuzzyStep fz today msg) := by
  have hDAT := no_day_after_of_no_tomorrow h2
  constructor
  · intro hvalid
    unfold parse_user_date
    rw [if_neg hne]
    simp only [h1, h2, h3, hDAT, h4, h5, Bool.or_self, Bool.false_eq_true,
      if_false, if_pos hvalid]
  · intro hinvalid
    unfold parse_user_date
    rw [if_neg hne]
    simp only [h1, h2, h3, hDAT, h4, h5, Bool.or_self, Bool.false_eq_true,
      if_false, if_neg hinvalid]

/-- Witness for C9 (valid day): "this month 20" from 2026-10-12 resolves to
2026-10-20. -/
theorem C9_this_month_witness :
    parse_user_date fzNone refDate "this month 20" =
      some ⟨2026, 10, 20⟩ := by
  have h := (C9_this_month fzNone refDate "this month 20" 20
    (by decide) (by decide) (by decide) (by decide) (by decide) (by decide)).1
  exact h (by decide)

/-- A fuzzy oracle reproducing `dateutil` on "this month 45": the token
"45" parses as the two-digit year 2045 (with month and day defaulted from
the reference date). -/
def fz45 : String → Option Date := fun s =>
  if s = "this month 45" then some ⟨2045, 10, 12⟩ else none

/-- C9 (counterexample): 45 is not a valid day of October 2026, yet the
resolver does not return `none` — the fuzzy fallback turns "45" into the
year 2045 and that future date is returned. -/
theorem C9_counterexample :
    parse_user_date fz45 refDate "this month 45" = some ⟨2045, 10, 12⟩ ∧
    daysInMonth 2026 10 < 45 := by
  refine ⟨by decide, by decide⟩

/-- C8: in the `choose_service` stage with the service type already set,
a message whose resolved date (with fallback to today) is a Sunday gets the
closed-day reply and the session record is returned entirely unchanged:
same stage, same service type, same requested date, same offer map. -/
theorem C8_closed_day_rejection (env : BotEnv) (st : ConvState)
    (msg s : String)
    (_hstage : st.stage = "choose_service")
    (hservice : st.service_type = some s)
    (hsunday : pyWeekday
      ((parse_user_date env.fz env.today msg).getD env.today) = 6) :
    handle_service_selection env st msg = (closedDayMsg, st) := by
  have hb : is_business_day
      ((parse_user_date env.fz env.today msg).getD env.today) = false := by
    simp [is_business_day, hsunday]
  unfold handle_service_selection
  rw [hservice]
  simp only [hb, Bool.false_eq_true, if_false]

/-- Witness environment for C8. -/
def envBot : BotEnv := ⟨fzNone, refDate, fun _ _ => []⟩

/-- Witness session for C8: `choose_service` stage with a chosen service,
a stored date and a stored offer map. -/
def stC8 : ConvState :=
  ⟨"choose_service", some "haircut", none, some bdate13,
   [("Anna Smith", ["10:00"])], [("1", "Anna Smith 10:00")]⟩

/-- Witness for C8: "sunday" from Monday 2026-10-12 resolves to Sunday
2026-10-18 and is rejected without touching the session. -/
theorem C8_closed_day_rejection_witness :
    handle_service_selection envBot stC8 "sunday" = (closedDayMsg, stC8) :=
  C8_closed_day_rejection envBot stC8 "sunday" "haircut" rfl rfl (by decide)

/-- Witness session for C5: `pick_slot` stage with a two-entry offer map. -/
def stC5 : ConvState :=
  ⟨"pick_slot", some "haircut", none, some bdate13,
   [("Anna Smith", ["10:00", "11:00"])],
   [("1", "Anna Smith 10:00"), ("2", "Anna Smith 11:00")]⟩

/-- C5 (counterexample): the literal word "last" does not select the
highest ordinal key — `_handle_slot_selection` has no such rule and
re-displays the offer list, leaving the session unchanged. -/
theorem C5_no_last_keyword :
    handle_slot_selection envBot stC5 "last" =
      (redisplayMsg stC5.slot_map, stC5) ∧
    (handle_slot_selection envBot stC5 "last").2.selected_slot = none ∧
    (handle_slot_selection envBot stC5 "last").2.stage = "pick_slot" := by
  refine ⟨by decide, by decide, by decide⟩

/-- C5 (amended): when the message does not change the session date and the
offer map is nonempty, a slot selection is resolved by (a) the extracted
message number matched exactly against the offer-map keys, else (b) an
HH:MM substring matched against the suffix of the first matching offer-map
value; if neither resolves, the full offer list is re-displayed and the
session (hence the `pick_slot` stage) is unchanged. -/
theorem C5_selection_resolution (env : BotEnv) (st : ConvState)
    (msg : String)
    (hdate : ∀ nd, parse_user_date env.fz env.today msg = some nd →
      st.requested_date = some nd)
    (hmap : st.slot_map ≠ []) :
    (∀ n v, parse_slot_number msg = some n →
      List.lookup n st.slot_map = some v →
      resolveSelection st.slot_map msg = some v) ∧
    ((∀ n, parse_slot_number msg = some n →
        List.lookup n st.slot_map = none) →
      ∀ t, parse_time_from_message msg = some t →
      resolveSelection st.slot_map msg =
        (st.slot_map.find? fun p => strEndsWith p.2 t).map fun p => p.2) ∧
    (resolveSelection st.slot_map msg = none →
      handle_slot_selection env st msg = (redisplayMsg st.slot_map, st)) := by
  refine ⟨?_, ?_, ?_⟩
  · intro n v hn hv
    have hnum : selectionByNumber st.slot_map msg = some v := by
      simp only [selectionByNumber, hn]
      exact hv
    simp only [resolveSelection, hnum]
  · intro hnone t ht
    have hnum : selectionByNumber st.slot_map msg = none := by
      rcases hn : parse_slot_number msg with _ | n
      · simp only [selectionByNumber, hn]
      · simp only [selectionByNumber, hn]
        exact hnone n hn
    simp only [resolveSelection, hnum, selectionByTime, ht]
  · intro hres
    have hempty : st.slot_map.isEmpty = false := by simp [hmap]
    have hcore : slotSelectionCore st msg =
        (redisplayMsg st.slot_map, st) := by
      simp only [slotSelectionCore, hres, hempty, Bool.false_eq_true,
        if_false]
    unfold handle_slot_selection
    rcases hp : parse_user_date env.fz env.today msg with _ | nd
    · exact hcore
    · have hd := hdate nd hp
      rw [hd]
      simp only [↓reduceIte]
      exact hcore

/-- Witness for C5: the message "1" (which resolves no date under the
failing fuzzy oracle) selects the offer-map entry with key "1". -/
theorem C5_selection_resolution_witness :
    resolveSelection stC5.slot_map "1" = some "Anna Smith 10:00" :=
  (C5_selection_resolution envBot stC5 "1"
    (fun nd h => by
      rw [show parse_user_date envBot.fz envBot.today "1" = none from by
        decide] at h
      exact Option.noConfusion h)
    (by decide)).1 "1" "Anna Smith 10:00" (by decide) (by decide)

end Salon
